import Mathlib

/-
Shallow embedding of the crash-loop monitor in src/app/app.py
(Kubernetes-Pod-Status-Alertmanager).

The embedding covers the detection-and-notification pipeline:
- fp (app.py 53-55): fingerprint of a detection;
- load_json (38-45) and save_json (47-51): the persistence store;
- the per-detection dispatch body of monitor_loop (145-166), the per-tick
  loop (140-175) and the multi-tick run.

External capabilities are modelled as inputs: the delivery outcome of
send_gmail is a Bool supplied with each detection, the cluster scan result
of list_crashloops is a ScanResult value supplied with each tick, and
sha256 is an uninterpreted function String -> String (only its determinism
is used). Epoch times are Int, matching Python integer arithmetic.
-/

namespace PodAlert

/-- Detection record built by list_crashloops (app.py 112-120): one entry
per container found waiting with reason CrashLoopBackOff. -/
structure Detection where
  time : String
  ns : String
  pod : String
  container : String
  restarts : Nat
  message : String
  reason : String
deriving DecidableEq, Repr

/-- Persisted event (app.py 164): the detection record merged with the
delivery outcome field email_sent. -/
structure Event where
  det : Detection
  email_sent : Bool
deriving DecidableEq, Repr

/-- The delimiter-joined string hashed by fp (app.py 54):
f"{ns}|{pod}|{container}|{reason}". -/
def fpRaw (ns pod container reason : String) : String :=
  ns ++ "|" ++ pod ++ "|" ++ container ++ "|" ++ reason

/-- fp (app.py 53-55): sha256 hexdigest of the joined string. The hash is
an uninterpreted parameter since only determinism (equal inputs give equal
outputs) is relied on by the program. -/
def fp (hash : String → String) (ns pod container reason : String) : String :=
  hash (fpRaw ns pod container reason)

/-- Fingerprint of a detection, as computed at app.py 146. -/
def fpOf (hash : String → String) (d : Detection) : String :=
  fp hash d.ns d.pod d.container d.reason

/-- int(state.get(key, 0)) (app.py 147): lookup in the alert-state mapping
with default 0. The dict is modelled as an association list. -/
def stateGet (m : List (String × Int)) (k : String) : Int :=
  match m with
  | [] => 0
  | (k', v) :: rest => if k' = k then v else stateGet rest k

/-- state[key] = now_epoch (app.py 161): update of the alert-state mapping. -/
def stateSet (m : List (String × Int)) (k : String) (v : Int) : List (String × Int) :=
  match m with
  | [] => [(k, v)]
  | (k', v') :: rest => if k' = k then (k, v) :: rest else (k', v') :: stateSet rest k v

/-- events[-200:] (app.py 165): the suffix of the n most recent entries. -/
def lastN (n : Nat) (l : List α) : List α := l.drop (l.length - n)

/-- In-memory and persisted state of monitor_loop: the alert-state dict and
events list (app.py 135-136) plus the committed contents of STATE_FILE and
EVENTS_FILE as written by save_json (162, 166). -/
structure LoopState where
  state : List (String × Int)
  events : List Event
  stateFile : List (String × Int)
  eventsFile : List Event
deriving DecidableEq, Repr

/-- Record of one notification attempt made at app.py 159: the fingerprint
key, the epoch at which it was attempted and the appended event (whose
email_sent field is the delivery outcome). -/
structure Emit where
  key : String
  epoch : Int
  event : Event
deriving DecidableEq, Repr

/-- Body of the per-detection for-loop of monitor_loop (app.py 145-166):
cooldown check, delivery attempt with outcome sent, state update and
STATE_FILE save only on success, event append capped to the last 200 and
EVENTS_FILE save whenever the attempt was made. Returns the new loop state
and the notification attempt, if any. -/
def dispatchOne (hash : String → String) (cooldown now : Int)
    (d : Detection) (sent : Bool) (s : LoopState) : LoopState × Option Emit :=
  if cooldown ≤ now - stateGet s.state (fpOf hash d) then
    (⟨(if sent then stateSet s.state (fpOf hash d) now else s.state),
      lastN 200 (s.events ++ [⟨d, sent⟩]),
      (if sent then stateSet s.state (fpOf hash d) now else s.stateFile),
      lastN 200 (s.events ++ [⟨d, sent⟩])⟩,
     some ⟨fpOf hash d, now, ⟨d, sent⟩⟩)
  else (s, none)

/-- The for-loop over crashloops of one tick (app.py 145): detections are
dispatched sequentially, threading the loop state left to right; each
detection carries the delivery outcome its send attempt would get. -/
def dispatchTick (hash : String → String) (cooldown now : Int)
    (ds : List (Detection × Bool)) (s : LoopState) : LoopState × List Emit :=
  match ds with
  | [] => (s, [])
  | db :: rest =>
      ((dispatchTick hash cooldown now rest (dispatchOne hash cooldown now db.1 db.2 s).1).1,
       (dispatchOne hash cooldown now db.1 db.2 s).2.toList ++
         (dispatchTick hash cooldown now rest (dispatchOne hash cooldown now db.1 db.2 s).1).2)

/-- Outcome of list_crashloops for one tick: a detection list (paired with
each detection's would-be delivery outcome), a kubernetes ApiException
(app.py 170), or any other exception (app.py 173). -/
inductive ScanResult where
  | ok (ds : List (Detection × Bool))
  | apiError
  | otherError
deriving DecidableEq, Repr

/-- One iteration of the while-loop of monitor_loop (app.py 140-175): on a
successful scan at epoch t.1, dispatch every detection; on ApiException or
any unexpected error, only log and sleep, touching nothing. -/
def tick (hash : String → String) (cooldown : Int)
    (t : Int × ScanResult) (s : LoopState) : LoopState × List Emit :=
  match t.2 with
  | .ok ds => dispatchTick hash cooldown t.1 ds s
  | .apiError => (s, [])
  | .otherError => (s, [])

/-- A finite run of the monitor loop: the while-loop of app.py 140 unrolled
over a list of tick inputs, collecting every notification attempt in order. -/
def runTicks (hash : String → String) (cooldown : Int)
    (ticks : List (Int × ScanResult)) (s : LoopState) : LoopState × List Emit :=
  match ticks with
  | [] => (s, [])
  | t :: rest =>
      ((runTicks hash cooldown rest (tick hash cooldown t s).1).1,
       (tick hash cooldown t s).2 ++ (runTicks hash cooldown rest (tick hash cooldown t s).1).2)

/-- Condition of the backing file as seen by load_json (app.py 38-45):
missing, unreadable (open or read raises), present but not valid JSON
(json.load raises), or valid with parsed document doc. -/
inductive FileContent (α : Type) where
  | absent
  | unreadable
  | notJson
  | valid (doc : α)

/-- load_json (app.py 38-45): returns the parsed document when the file
exists and parses; every failure path falls through to the caller-supplied
default. Total: no error escapes. -/
def load_json {α : Type} (fc : FileContent α) (default : α) : α :=
  match fc with
  | .valid doc => doc
  | .absent => default
  | .unreadable => default
  | .notJson => default

/-- On-disk view of one persisted path: the committed canonical content and
the temporary file path + ".tmp", if present. Content is the serialized
character stream json.dump produces. -/
structure DiskFile where
  canonical : List Char
  tmp : Option (List Char)
deriving DecidableEq, Repr

/-- save_json (app.py 47-51) observed at interruption point k: the document
is streamed to the tmp path character by character and then os.replace
atomically installs it. For k ≤ doc.length the process stopped while (or
before) writing the tmp file, which holds the first k characters; for
k > doc.length the replace completed. -/
def save_json (fs : DiskFile) (doc : List Char) (k : Nat) : DiskFile :=
  if k ≤ doc.length then
    { canonical := fs.canonical, tmp := some (doc.take k) }
  else
    { canonical := doc, tmp := none }

/-- save_json (app.py 47-51) at the document level: the committed event-log
document after an uninterrupted save is exactly the object the caller
passed; save_json itself applies no truncation. -/
def save_json_doc (doc : List Event) : List Event := doc

/-- A concrete detection (Scenario A of the spec). -/
def sampleDetection : Detection :=
  ⟨"2026-01-01T00:00:00Z", "ns1", "p1", "c1", 5, "", "CrashLoopBackOff"⟩

/-- The event produced by a successful first-ever dispatch of
sampleDetection. -/
def sampleEvent : Event := ⟨sampleDetection, true⟩

/-- A 201-entry event-log document. -/
def doc201 : List Event := List.replicate 201 sampleEvent

/-- Loop state at first start with no prior data. -/
def emptyState : LoopState := ⟨[], [], [], []⟩

/-- Every past successful notification attempt in l is dominated by the
current alert-state entry for its fingerprint. -/
def Dominated (s : LoopState) (l : List Emit) : Prop :=
  ∀ e ∈ l, e.event.email_sent = true → e.epoch ≤ stateGet s.state e.key

/-- Cooldown-gate property of an attempt list: whenever a successful
attempt for a fingerprint is followed by another attempt for the same
fingerprint, at least c seconds separate them. -/
def Gate (c : Int) (l : List Emit) : Prop :=
  l.Pairwise (fun e1 e2 => e1.event.email_sent = true → e1.key = e2.key →
    c ≤ e2.epoch - e1.epoch)

/-- Combined run invariant for the cooldown-gate proof. -/
def Inv (c : Int) (s : LoopState) (l : List Emit) : Prop :=
  Dominated s l ∧ Gate c l

theorem stateGet_stateSet_self (m : List (String × Int)) (k : String) (v : Int) :
    stateGet (stateSet m k v) k = v := by
  induction m with
  | nil => simp [stateSet, stateGet]
  | cons p rest ih =>
      obtain ⟨k', v'⟩ := p
      by_cases h : k' = k <;> simp [stateSet, stateGet, h, ih]

theorem stateGet_stateSet_ne (m : List (String × Int)) (k j : String) (v : Int)
    (h : j ≠ k) : stateGet (stateSet m k v) j = stateGet m j := by
  have hkj : k ≠ j := fun hh => h hh.symm
  induction m with
  | nil => simp [stateSet, stateGet, hkj]
  | cons p rest ih =>
      obtain ⟨k', v'⟩ := p
      by_cases hk : k' = k
      · subst hk
        simp [stateSet, stateGet, hkj]
      · simp [stateSet, stateGet, hk, ih]

theorem stateGet_dispatchOne_mono (hash : String → String) (c now : Int)
    (d : Detection) (b : Bool) (s : LoopState) (hc : 0 ≤ c) (j : String) :
    stateGet s.state j ≤ stateGet (dispatchOne hash c now d b s).1.state j := by
  by_cases hg : c ≤ now - stateGet s.state (fpOf hash d)
  · cases b with
    | false => simp [dispatchOne, hg]
    | true =>
        by_cases hj : j = fpOf hash d
        · subst hj
          simp only [dispatchOne, hg, if_pos, if_true]
          rw [stateGet_stateSet_self]
          omega
        · simp [dispatchOne, hg, stateGet_stateSet_ne _ _ _ _ hj]
  · simp [dispatchOne, hg]

theorem dispatchOne_inv (hash : String → String) (c now : Int) (d : Detection)
    (b : Bool) (s : LoopState) (l : List Emit) (hc : 0 ≤ c) (h : Inv c s l) :
    Inv c (dispatchOne hash c now d b s).1
      (l ++ (dispatchOne hash c now d b s).2.toList) := by
  obtain ⟨hdom, hgate⟩ := h
  by_cases hg : c ≤ now - stateGet s.state (fpOf hash d)
  case neg =>
    simp only [dispatchOne, if_neg hg, Option.toList_none, List.append_nil]
    exact ⟨hdom, hgate⟩
  case pos =>
    refine ⟨?_, ?_⟩
    · unfold Dominated at hdom ⊢
      intro e he hsucc
      rcases List.mem_append.mp he with hel | henew
      · calc e.epoch ≤ stateGet s.state e.key := hdom e hel hsucc
          _ ≤ stateGet (dispatchOne hash c now d b s).1.state e.key :=
              stateGet_dispatchOne_mono hash c now d b s hc e.key
      · simp only [dispatchOne, if_pos hg, Option.toList_some, List.mem_singleton] at henew
        subst henew
        replace hsucc : b = true := hsucc
        subst hsucc
        show now ≤ stateGet (dispatchOne hash c now d true s).1.state (fpOf hash d)
        simp only [dispatchOne, if_pos hg, if_true]
        rw [stateGet_stateSet_self]
    · unfold Gate at hgate ⊢
      simp only [dispatchOne, if_pos hg, Option.toList_some]
      rw [List.pairwise_append]
      refine ⟨hgate, List.pairwise_singleton _ _, ?_⟩
      intro e1 he1 e2 he2
      simp only [List.mem_singleton] at he2
      subst he2
      intro hsucc hkey
      have h1 := hdom e1 he1 hsucc
      replace hkey : e1.key = fpOf hash d := hkey
      rw [hkey] at h1
      show c ≤ now - e1.epoch
      omega

theorem dispatchTick_inv (hash : String → String) (c now : Int) (hc : 0 ≤ c) :
    ∀ (ds : List (Detection × Bool)) (s : LoopState) (l : List Emit), Inv c s l →
      Inv c (dispatchTick hash c now ds s).1 (l ++ (dispatchTick hash c now ds s).2) := by
  intro ds
  induction ds with
  | nil => intro s l h; simpa [dispatchTick] using h
  | cons db rest ih =>
      intro s l h
      have h1 := dispatchOne_inv hash c now db.1 db.2 s l hc h
      have h2 := ih (dispatchOne hash c now db.1 db.2 s).1 _ h1
      simpa [dispatchTick, List.append_assoc] using h2

theorem tick_inv (hash : String → String) (c : Int) (hc : 0 ≤ c)
    (t : Int × ScanResult) (s : LoopState) (l : List Emit) (h : Inv c s l) :
    Inv c (tick hash c t s).1 (l ++ (tick hash c t s).2) := by
  obtain ⟨tn, sc⟩ := t
  cases sc with
  | ok ds => exact dispatchTick_inv hash c tn hc ds s l h
  | apiError => simpa [tick] using h
  | otherError => simpa [tick] using h

theorem runTicks_inv (hash : String → String) (c : Int) (hc : 0 ≤ c) :
    ∀ (ticks : List (Int × ScanResult)) (s : LoopState) (l : List Emit), Inv c s l →
      Inv c (runTicks hash c ticks s).1 (l ++ (runTicks hash c ticks s).2) := by
  intro ticks
  induction ticks with
  | nil => intro s l h; simpa [runTicks] using h
  | cons t rest ih =>
      intro s l h
      have h1 := tick_inv hash c hc t s l h
      have h2 := ih (tick hash c t s).1 _ h1
      simpa [runTicks, List.append_assoc] using h2

/-- C1: cooldown gate. Over any finite run, whenever a notification for a
fingerprint is successfully sent at epoch T, every later notification
attempt for the same fingerprint happens at an epoch T' with
T' - T ≥ cooldown (so none is sent earlier); and a dispatch attempts a
notification exactly when the detection's fingerprint is cooldown-eligible,
so the first eligible tick attempts one. Holds for any nonnegative
cooldown. -/
theorem cooldown_gate (hash : String → String) (c : Int)
    (ticks : List (Int × ScanResult)) (s0 : LoopState) (hc : 0 ≤ c) :
    Gate c (runTicks hash c ticks s0).2 ∧
    ∀ (now : Int) (d : Detection) (b : Bool) (s : LoopState),
      ((dispatchOne hash c now d b s).2).isSome = true ↔
        c ≤ now - stateGet s.state (fpOf hash d) := by
  constructor
  · have h0 : Inv c s0 [] :=
      ⟨fun e he => absurd he (List.not_mem_nil e), List.Pairwise.nil⟩
    have h := runTicks_inv hash c hc ticks s0 [] h0
    simpa using h.2
  · intro now d b s
    by_cases hg : c ≤ now - stateGet s.state (fpOf hash d) <;> simp [dispatchOne, hg]

/-- Witness: cooldown_gate instantiated at a concrete one-tick run with
cooldown 600. -/
theorem cooldown_gate_witness :
    Gate 600 (runTicks (fun x => x) 600
      [((1000 : Int), ScanResult.ok [(sampleDetection, true)])] emptyState).2 ∧
    ∀ (now : Int) (d : Detection) (b : Bool) (s : LoopState),
      ((dispatchOne (fun x => x) 600 now d b s).2).isSome = true ↔
        600 ≤ now - stateGet s.state (fpOf (fun x => x) d) :=
  cooldown_gate (fun x => x) 600
    [((1000 : Int), ScanResult.ok [(sampleDetection, true)])] emptyState (by decide)

/-- C2: the alert state advances only on confirmed success. For a
cooldown-eligible detection: on delivery failure, the in-memory mapping and
the persisted state file are both left unchanged, and the same fingerprint
is immediately eligible again at any epoch that was already eligible; on
delivery success, the fingerprint's entry is set to the current epoch and
the state file is rewritten to the updated mapping. -/
theorem state_advances_only_on_success (hash : String → String) (c now : Int)
    (d : Detection) (s : LoopState)
    (hgate : c ≤ now - stateGet s.state (fpOf hash d)) :
    ((dispatchOne hash c now d false s).1.state = s.state ∧
     (dispatchOne hash c now d false s).1.stateFile = s.stateFile) ∧
    (stateGet (dispatchOne hash c now d true s).1.state (fpOf hash d) = now ∧
     (dispatchOne hash c now d true s).1.stateFile =
       (dispatchOne hash c now d true s).1.state) ∧
    (∀ (now' : Int) (b' : Bool), c ≤ now' - stateGet s.state (fpOf hash d) →
      ((dispatchOne hash c now' d b' (dispatchOne hash c now d false s).1).2).isSome
        = true) := by
  refine ⟨?_, ?_, ?_⟩
  · simp [dispatchOne, hgate]
  · simp [dispatchOne, hgate, stateGet_stateSet_self]
  · intro now' b' hg'
    simp [dispatchOne, hgate, hg']

/-- Witness: state_advances_only_on_success at a first-ever dispatch of the
sample detection with cooldown 600 at epoch 1000. -/
theorem state_advances_only_on_success_witness :
    ((dispatchOne (fun x => x) 600 1000 sampleDetection false emptyState).1.state
        = emptyState.state ∧
     (dispatchOne (fun x => x) 600 1000 sampleDetection false emptyState).1.stateFile
        = emptyState.stateFile) ∧
    (stateGet (dispatchOne (fun x => x) 600 1000 sampleDetection true emptyState).1.state
        (fpOf (fun x => x) sampleDetection) = 1000 ∧
     (dispatchOne (fun x => x) 600 1000 sampleDetection true emptyState).1.stateFile =
       (dispatchOne (fun x => x) 600 1000 sampleDetection true emptyState).1.state) ∧
    (∀ (now' : Int) (b' : Bool),
      600 ≤ now' - stateGet emptyState.state (fpOf (fun x => x) sampleDetection) →
      ((dispatchOne (fun x => x) 600 now' sampleDetection b'
          (dispatchOne (fun x => x) 600 1000 sampleDetection false emptyState).1).2).isSome
        = true) :=
  state_advances_only_on_success (fun x => x) 600 1000 sampleDetection emptyState (by decide)

/-- C4: intra-tick deduplication. Within one tick, if two detections share
a fingerprint, the cooldown is positive, the first is eligible and its
delivery succeeds, then the second observes the just-updated alert state,
is cooldown-blocked, and the tick produces exactly one notification attempt
and exactly one appended event (the first detection's). -/
theorem intra_tick_dedup (hash : String → String) (c now : Int)
    (d1 d2 : Detection) (b : Bool) (s : LoopState)
    (hkey : fpOf hash d2 = fpOf hash d1)
    (hpos : 0 < c)
    (hgate : c ≤ now - stateGet s.state (fpOf hash d1)) :
    (dispatchTick hash c now [(d1, true), (d2, b)] s).2 =
      [⟨fpOf hash d1, now, ⟨d1, true⟩⟩] ∧
    (dispatchTick hash c now [(d1, true), (d2, b)] s).1.events =
      lastN 200 (s.events ++ [⟨d1, true⟩]) := by
  have h2 : ¬ (c ≤ now - stateGet (stateSet s.state (fpOf hash d1) now) (fpOf hash d2)) := by
    rw [hkey, stateGet_stateSet_self]
    omega
  constructor <;> simp [dispatchTick, dispatchOne, hgate, h2]

/-- Witness: intra_tick_dedup on two copies of the sample detection in one
tick, cooldown 600, first delivery successful. -/
theorem intra_tick_dedup_witness :
    (dispatchTick (fun x => x) 600 1000
        [(sampleDetection, true), (sampleDetection, false)] emptyState).2 =
      [⟨fpOf (fun x => x) sampleDetection, 1000, ⟨sampleDetection, true⟩⟩] ∧
    (dispatchTick (fun x => x) 600 1000
        [(sampleDetection, true), (sampleDetection, false)] emptyState).1.events =
      lastN 200 (emptyState.events ++ [⟨sampleDetection, true⟩]) :=
  intra_tick_dedup (fun x => x) 600 1000 sampleDetection sampleDetection false
    emptyState rfl (by decide) (by decide)

/-- C5: throttled detections leave no trace. If the fingerprint's last-sent
time satisfies now - lastSent < cooldown, the dispatch makes no delivery
attempt, appends no event, and changes nothing: the whole loop state
(in-memory mapping and events, and both persisted files) is returned
untouched. -/
theorem throttled_no_trace (hash : String → String) (c now : Int)
    (d : Detection) (b : Bool) (s : LoopState)
    (hblock : now - stateGet s.state (fpOf hash d) < c) :
    dispatchOne hash c now d b s = (s, none) := by
  simp [dispatchOne, not_le.mpr hblock]

/-- Witness: throttled_no_trace at epoch 10 with cooldown 600 on a
never-sent fingerprint store is blocked (10 - 0 < 600). -/
theorem throttled_no_trace_witness :
    dispatchOne (fun x => x) 600 10 sampleDetection true emptyState =
      (emptyState, none) :=
  throttled_no_trace (fun x => x) 600 10 sampleDetection true emptyState (by decide)

theorem lastN_length_le (n : Nat) (l : List α) : (lastN n l).length ≤ n := by
  simp [lastN]
  omega

theorem lastN_append_lastN (n : Nat) (l l2 : List α) :
    lastN n (lastN n l ++ l2) = lastN n (l ++ l2) := by
  unfold lastN
  rw [List.drop_append_eq_append_drop, List.drop_append_eq_append_drop, List.drop_drop]
  simp only [List.length_append, List.length_drop]
  congr 2 <;> omega

/-- Relation between the loop state before and after a program fragment
that emitted the notification attempts out: if nothing was emitted, the
event list and the events file are untouched; otherwise the event list is
the 200 most recent entries of the starting list extended by the emitted
events in order, and the events file equals it (it was saved right after
the last append). -/
def EventsSpec (s0 s1 : LoopState) (out : List Emit) : Prop :=
  (out = [] → s1.events = s0.events ∧ s1.eventsFile = s0.eventsFile) ∧
  (out ≠ [] → s1.events = lastN 200 (s0.events ++ out.map Emit.event) ∧
    s1.eventsFile = s1.events)

theorem eventsSpec_refl (s : LoopState) : EventsSpec s s [] :=
  ⟨fun _ => ⟨rfl, rfl⟩, fun h => absurd rfl h⟩

theorem eventsSpec_comp {s0 s1 s2 : LoopState} {o1 o2 : List Emit}
    (h1 : EventsSpec s0 s1 o1) (h2 : EventsSpec s1 s2 o2) :
    EventsSpec s0 s2 (o1 ++ o2) := by
  unfold EventsSpec at h1 h2 ⊢
  by_cases e1 : o1 = [] <;> by_cases e2 : o2 = []
  · subst e1; subst e2
    obtain ⟨ha, hb⟩ := h1.1 rfl
    obtain ⟨hc, hd⟩ := h2.1 rfl
    exact ⟨fun _ => ⟨hc.trans ha, hd.trans hb⟩, fun h => absurd rfl h⟩
  · subst e1
    obtain ⟨ha, hb⟩ := h1.1 rfl
    obtain ⟨hc, hd⟩ := h2.2 e2
    refine ⟨fun h => absurd h (by simpa using e2), fun _ => ⟨?_, hd⟩⟩
    rw [hc, ha]
    simp
  · subst e2
    obtain ⟨ha, hb⟩ := h1.2 e1
    obtain ⟨hc, hd⟩ := h2.1 rfl
    refine ⟨fun h => absurd h (by simp [e1]), fun _ => ⟨?_, ?_⟩⟩
    · rw [hc, ha]
      simp
    · rw [hd, hb, hc]
  · obtain ⟨ha, hb⟩ := h1.2 e1
    obtain ⟨hc, hd⟩ := h2.2 e2
    refine ⟨fun h => absurd h (by simp [e1]), fun _ => ⟨?_, hd⟩⟩
    rw [hc, ha, lastN_append_lastN]
    simp

theorem dispatchOne_events (hash : String → String) (c now : Int)
    (d : Detection) (b : Bool) (s : LoopState) :
    EventsSpec s (dispatchOne hash c now d b s).1
      (dispatchOne hash c now d b s).2.toList := by
  by_cases hg : c ≤ now - stateGet s.state (fpOf hash d)
  · refine ⟨fun h => ?_, fun _ => ?_⟩
    · simp [dispatchOne, hg] at h
    · constructor <;> simp [dispatchOne, hg]
  · have h0 := eventsSpec_refl s
    simpa [dispatchOne, hg] using h0

theorem dispatchTick_events (hash : String → String) (c now : Int) :
    ∀ (ds : List (Detection × Bool)) (s : LoopState),
      EventsSpec s (dispatchTick hash c now ds s).1 (dispatchTick hash c now ds s).2 := by
  intro ds
  induction ds with
  | nil =>
      intro s
      simpa [dispatchTick] using eventsSpec_refl s
  | cons db rest ih =>
      intro s
      have h3 := eventsSpec_comp (dispatchOne_events hash c now db.1 db.2 s)
        (ih (dispatchOne hash c now db.1 db.2 s).1)
      simpa [dispatchTick] using h3

theorem tick_events (hash : String → String) (c : Int)
    (t : Int × ScanResult) (s : LoopState) :
    EventsSpec s (tick hash c t s).1 (tick hash c t s).2 := by
  obtain ⟨tn, sc⟩ := t
  cases sc with
  | ok ds => exact dispatchTick_events hash c tn ds s
  | apiError => simpa [tick] using eventsSpec_refl s
  | otherError => simpa [tick] using eventsSpec_refl s

theorem runTicks_events (hash : String → String) (c : Int) :
    ∀ (ticks : List (Int × ScanResult)) (s : LoopState),
      EventsSpec s (runTicks hash c ticks s).1 (runTicks hash c ticks s).2 := by
  intro ticks
  induction ticks with
  | nil =>
      intro s
      simpa [runTicks] using eventsSpec_refl s
  | cons t rest ih =>
      intro s
      have h3 := eventsSpec_comp (tick_events hash c t s) (ih (tick hash c t s).1)
      simpa [runTicks] using h3

/-- C3: bounded event log. Over any finite run, if no event was appended
the events file is untouched; and as soon as any event was appended, the
committed events file is exactly the 200 most recent entries of the initial
event list extended by every appended event in detection order (oldest
dropped), and in particular never exceeds 200 entries. -/
theorem bounded_event_log (hash : String → String) (c : Int)
    (ticks : List (Int × ScanResult)) (s0 : LoopState) :
    ((runTicks hash c ticks s0).2 = [] →
      (runTicks hash c ticks s0).1.eventsFile = s0.eventsFile) ∧
    ((runTicks hash c ticks s0).2 ≠ [] →
      (runTicks hash c ticks s0).1.eventsFile =
        lastN 200 (s0.events ++ (runTicks hash c ticks s0).2.map Emit.event) ∧
      (runTicks hash c ticks s0).1.eventsFile.length ≤ 200) := by
  have h := runTicks_events hash c ticks s0
  refine ⟨fun he => (h.1 he).2, fun he => ?_⟩
  obtain ⟨ha, hb⟩ := h.2 he
  refine ⟨hb.trans ha, ?_⟩
  rw [hb, ha]
  exact lastN_length_le _ _

/-- Witness: bounded_event_log on a concrete one-tick run that appends one
event. -/
theorem bounded_event_log_witness :
    (runTicks (fun x => x) 600
        [((1000 : Int), ScanResult.ok [(sampleDetection, true)])] emptyState).1.eventsFile =
      lastN 200 (emptyState.events ++
        ((runTicks (fun x => x) 600
          [((1000 : Int), ScanResult.ok [(sampleDetection, true)])] emptyState).2.map
            Emit.event)) ∧
    (runTicks (fun x => x) 600
        [((1000 : Int), ScanResult.ok [(sampleDetection, true)])]
        emptyState).1.eventsFile.length ≤ 200 :=
  (bounded_event_log (fun x => x) 600
    [((1000 : Int), ScanResult.ok [(sampleDetection, true)])] emptyState).2 (by decide)

set_option maxRecDepth 4000 in
/-- C6 counterexample: save_json applies no truncation. The committed
event-log document of an uninterrupted save of a 201-entry list is the
201-entry list itself, not its 200 most recent entries, so the save
operation does not itself enforce the cap. -/
theorem save_json_no_cap : save_json_doc doc201 ≠ lastN 200 doc201 := by
  intro h
  have hl := congrArg List.length h
  simp only [save_json_doc, doc201, lastN, List.length_drop, List.length_replicate] at hl
  omega

/-- C6 amended: the 200-entry cap is enforced by the caller, not by save.
monitor_loop truncates the event list to its 200 most recent entries
immediately before every event-log save, so the document handed to
save_json — and hence the committed events file — is the capped list and
never exceeds 200 entries. -/
theorem event_log_cap_at_caller (hash : String → String) (c now : Int)
    (d : Detection) (b : Bool) (s : LoopState)
    (hgate : c ≤ now - stateGet s.state (fpOf hash d)) :
    (dispatchOne hash c now d b s).1.eventsFile =
      save_json_doc (lastN 200 (s.events ++ [⟨d, b⟩])) ∧
    (dispatchOne hash c now d b s).1.eventsFile.length ≤ 200 := by
  constructor
  · simp [dispatchOne, hgate, save_json_doc]
  · simp only [dispatchOne, if_pos hgate]
    exact lastN_length_le _ _

/-- Witness: event_log_cap_at_caller at a first-ever dispatch of the sample
detection. -/
theorem event_log_cap_at_caller_witness :
    (dispatchOne (fun x => x) 600 1000 sampleDetection true emptyState).1.eventsFile =
      save_json_doc (lastN 200 (emptyState.events ++ [⟨sampleDetection, true⟩])) ∧
    (dispatchOne (fun x => x) 600 1000 sampleDetection true
        emptyState).1.eventsFile.length ≤ 200 :=
  event_log_cap_at_caller (fun x => x) 600 1000 sampleDetection true emptyState (by decide)

/-- C7: crash-safe save. At every interruption point the canonical file
holds either the previously committed content or the complete new document
— never a partial write; as long as the interruption happens at or before
the end of the tmp write (that is, before os.replace runs), the previously
committed content is intact, and once the replace has run the complete new
document is committed. -/
theorem save_crash_safe (fs : DiskFile) (doc : List Char) (k : Nat) :
    ((save_json fs doc k).canonical = fs.canonical ∨
     (save_json fs doc k).canonical = doc) ∧
    (k ≤ doc.length → (save_json fs doc k).canonical = fs.canonical) ∧
    (doc.length < k → (save_json fs doc k).canonical = doc) := by
  by_cases h : k ≤ doc.length
  · exact ⟨Or.inl (by simp [save_json, h]), fun _ => by simp [save_json, h],
      fun hlt => absurd h (by omega)⟩
  · exact ⟨Or.inr (by simp [save_json, h]), fun hle => absurd hle h,
      fun _ => by simp [save_json, h]⟩

/-- Witness: save_crash_safe on a concrete two-character document — a crash
after one character leaves the old content, and completion installs the new
content. -/
theorem save_crash_safe_witness :
    (save_json ⟨['o'], none⟩ ['n', 'e'] 1).canonical = ['o'] ∧
    (save_json ⟨['o'], none⟩ ['n', 'e'] 5).canonical = ['n', 'e'] :=
  ⟨(save_crash_safe ⟨['o'], none⟩ ['n', 'e'] 1).2.1 (by decide),
   (save_crash_safe ⟨['o'], none⟩ ['n', 'e'] 5).2.2 (by decide)⟩

/-- C8: load defaults on absence or corruption. load_json returns the
caller-supplied default whenever the backing file is absent, unreadable or
not valid JSON — and being a total function it raises no error — while a
valid file yields its parsed document. -/
theorem load_defaults {α : Type} (d : α) :
    load_json FileContent.absent d = d ∧
    load_json FileContent.unreadable d = d ∧
    load_json FileContent.notJson d = d ∧
    ∀ doc : α, load_json (FileContent.valid doc) d = doc :=
  ⟨rfl, rfl, rfl, fun _ => rfl⟩

/-- C9: whole-tick abandonment on error. A tick whose cluster scan raises a
kubernetes ApiException or any unexpected error dispatches nothing and
leaves the loop state — alert state, event list and both persisted files —
exactly as it was; and the loop does not terminate: the run over the
remaining ticks is exactly the run without the error tick. -/
theorem error_tick_abandoned (hash : String → String) (c now : Int)
    (rest : List (Int × ScanResult)) (s : LoopState) :
    tick hash c (now, ScanResult.apiError) s = (s, []) ∧
    tick hash c (now, ScanResult.otherError) s = (s, []) ∧
    runTicks hash c ((now, ScanResult.apiError) :: rest) s = runTicks hash c rest s ∧
    runTicks hash c ((now, ScanResult.otherError) :: rest) s = runTicks hash c rest s := by
  refine ⟨rfl, rfl, ?_, ?_⟩ <;> simp [runTicks, tick, Prod.mk.eta]

/-- C10: the fingerprint function is not injective on unrestricted string
inputs. The distinct tuples ("a|b","c","d","r") and ("a","b|c","d","r")
join to the same delimiter-separated string "a|b|c|d|r", so fp maps them to
the same fingerprint for every hash function — in particular for sha256. -/
theorem fp_not_injective (hash : String → String) :
    (("a|b", "c", "d", "r") ≠ (("a", "b|c", "d", "r") : String × String × String × String)) ∧
    fp hash "a|b" "c" "d" "r" = fp hash "a" "b|c" "d" "r" :=
  ⟨by decide, congrArg hash (by decide)⟩

end PodAlert
